import Mathlib

/-!
Shallow embedding of `dexscreener_realtime_data/__main__.py` (the binary
decoding pipeline of the dexscreener-data repository) and proofs about it.

Modelling conventions:

* Byte strings are `List Nat` (each entry a byte value `0..255`); all cursor
  arithmetic is on `Nat`, matching Python's non-negative indices in this code.
* IEEE-754 doubles are modelled by their 64-bit little-endian bit patterns
  (`Nat`).  The Python code performs no floating-point arithmetic: it only
  unpacks doubles (`struct.unpack("8d", ...)`, the identity on bit patterns),
  tests finiteness (`math.isfinite`, a test on the exponent field), compares
  with zero (true exactly for the two zero bit patterns), compares the
  timestamp with integer bounds and truncates it (both computed exactly from
  the bit pattern via the exact rational value `floatValQ`), and renders
  values with `str(...)`.
* The CPython runtime primitives that are external to the repository are
  parameters of the embedding: `u : List Nat → String` models
  `bytes.decode("utf-8", errors="ignore")`, `f : Nat → String` models
  `str(<float>)` applied to a double given by its bit pattern, and
  `t : Int → String` models `datetime.fromtimestamp(_).strftime(...)`
  together with its `except` fallback.  All claims are proved for every
  choice of these parameters (except where a stated property of CPython's
  `str`, namely that a finite non-zero float never prints as `"0"`, is an
  explicit hypothesis).
* Python exceptions are explicit: the validation code of `decode_pair` can
  raise `KeyError` (subscripting the `{}` default), so the body is an
  `Except Unit _` value and the `except Exception` handler of lines 179-182
  maps errors to `none`.
-/

/-- Value stored in a decoded pair record: Python strings, ints, and the
nested single-key string dicts used for priceChange/liquidity/volume. -/
inductive PVal where
  | s : String → PVal
  | n : Int → PVal
  | d : List (String × String) → PVal
deriving DecidableEq

/-- A decoded record: Python's insertion-ordered `dict[str, ...]`, as an
association list with (by construction) pairwise-distinct keys. -/
abbrev Pair := List (String × PVal)

/-- Python `repr`/`str` of a `dict[str, str]`, e.g. `{'h24': '1.0'}` (written
with explicit character codes for the braces and quotes). -/
def pyDictRepr (l : List (String × String)) : String :=
  let q : Char := Char.ofNat 39
  let items := l.map (fun kv =>
    String.mk (q :: kv.1.data ++ [q, ':', ' ', q] ++ kv.2.data ++ [q]))
  String.mk [Char.ofNat 123] ++ String.intercalate ", " items ++ String.mk [Char.ofNat 125]

/-- Python `str(...)` on a record value (identity on strings). -/
def pyStr : PVal → String
  | .s v => v
  | .n v => toString v
  | .d l => pyDictRepr l

/-- Read `k` bytes little-endian starting at `pos` (Horner form);
out-of-range reads give byte 0 (callers guard the range). -/
def readBytes (data : List Nat) : Nat → Nat → Nat
  | 0, _ => 0
  | k + 1, pos => data.getD pos 0 + 256 * readBytes data k (pos + 1)

/-- The 64-bit pattern of the double stored at `pos`
(`struct.unpack` of one `d` slot, little-endian). -/
def readLE64 (data : List Nat) (pos : Nat) : Nat :=
  readBytes data 8 pos

/-- Little-endian byte encoding of the low `k` bytes of `x`. -/
def encBytes : Nat → Nat → List Nat
  | 0, _ => []
  | k + 1, x => x % 256 :: encBytes k (x / 256)

/-- 8-byte little-endian encoding of a 64-bit pattern
(`struct.pack` of one `d` slot). -/
def encodeLE64 (x : Nat) : List Nat :=
  encBytes 8 x

/-- `math.isfinite` on a double bit pattern: the exponent field is not
all-ones (all-ones encodes infinities and NaNs). -/
def isFiniteBits (b : Nat) : Bool :=
  b / 2 ^ 52 % 2 ^ 11 != 2047

/-- Whether a double bit pattern represents `0.0` or `-0.0` (the only two
patterns whose float compares equal to `0`). -/
def isZeroFloatBits (b : Nat) : Bool :=
  b % 2 ^ 63 == 0

/-- Lines 22-26: `handle_double` returns the value if it is a finite float
and `0.0` otherwise, here on bit patterns. -/
def handle_double (b : Nat) : Nat :=
  if isFiniteBits b then b else 0

/-- One iteration of the metrics loop of lines 51-54: keep `(key, cleaned)`
only when the sanitized value is not equal to `0`. -/
def keepMetric (key : String) (b : Nat) : List (String × Nat) :=
  let cleaned := handle_double b
  if isZeroFloatBits cleaned then [] else [(key, cleaned)]

/-- The seven named metric slots, in the order of `value_map` (line 42). -/
def metricNames : List String :=
  ["price", "priceUsd", "priceChangeH24", "liquidityUsd", "volumeH24", "fdv", "timestamp"]

/-- Lines 29-62: `decode_metrics`.  If fewer than 64 bytes remain the result
is `({}, start_pos)`; otherwise the eight doubles are unpacked, the first
seven are mapped to their names, non-finite or zero values are dropped, and
the cursor advances by 64.  The eighth slot is read but unused. -/
def decode_metrics (data : List Nat) (start_pos : Nat) : List (String × Nat) × Nat :=
  if start_pos + 64 > data.length then ([], start_pos)
  else
    (keepMetric "price" (readLE64 data start_pos) ++
     keepMetric "priceUsd" (readLE64 data (start_pos + 8)) ++
     keepMetric "priceChangeH24" (readLE64 data (start_pos + 16)) ++
     keepMetric "liquidityUsd" (readLE64 data (start_pos + 24)) ++
     keepMetric "volumeH24" (readLE64 data (start_pos + 32)) ++
     keepMetric "fdv" (readLE64 data (start_pos + 40)) ++
     keepMetric "timestamp" (readLE64 data (start_pos + 48)),
     start_pos + 64)

/-- Characters kept by line 71-73 of `clean_string`: printable ASCII
(`32 <= ord(char) < 127`) or tab (`ord(char) == 9`). -/
def isPrintableTab (c : Char) : Bool :=
  (32 ≤ c.toNat && c.toNat < 127) || c.toNat == 9

/-- The whitespace stripped by `str.strip()` from strings already filtered to
printable-ASCII-plus-tab: only space and tab remain possible. -/
def isStripWs (c : Char) : Bool :=
  c == ' ' || c == '\t'

/-- Python `str.strip()` (on post-filter strings): drop whitespace from both
ends. -/
def pyStrip (l : List Char) : List Char :=
  List.rdropWhile isStripWs (List.dropWhile isStripWs l)

/-- Lines 65-81: `clean_string`.  Empty input returns empty; otherwise keep
printable-ASCII-plus-tab characters, truncate before the first `@` and then
before the first backslash when either occurs, and strip both ends.  (The
`try` body can in fact not raise.) -/
def clean_string (s : String) : String :=
  if s = "" then ""
  else
    let cleaned := s.data.filter isPrintableTab
    let cleaned2 :=
      if '@' ∈ cleaned ∨ '\\' ∈ cleaned
      then (cleaned.takeWhile (· != '@')).takeWhile (· != '\\')
      else cleaned
    String.mk (pyStrip cleaned2)

/-- The six length-prefixed text fields of a record, in decode order
(lines 95-102). -/
def fieldNames : List String :=
  ["chain", "protocol", "pairAddress", "baseTokenName", "baseTokenSymbol", "baseTokenAddress"]

/-- Number of leading delimiter bytes (0x00 / 0x0A) skipped by the `while`
loop of lines 90-92 (starting from position 0). -/
def skipCount : List Nat → Nat
  | [] => 0
  | b :: rest => if b = 0 ∨ b = 10 then skipCount rest + 1 else 0

/-- Lines 108-130, one field: read the length byte at `pos` (callers ensure
`pos < data.length`), advance past it, reject when the length is 0, above
100, or runs past the end (still consuming the claimed length), otherwise
utf-8-decode (`u`), sanitize, and treat an empty result as absent.  Returns
the optional field value and the new cursor. -/
def decode_field (u : List Nat → String) (data : List Nat) (pos : Nat) :
    Option String × Nat :=
  let str_len := data.getD pos 0
  let pos1 := pos + 1
  if str_len = 0 ∨ str_len > 100 ∨ pos1 + str_len > data.length then
    (none, pos1 + str_len)
  else
    let value := clean_string (u ((data.drop pos1).take str_len))
    (if value = "" then none else some value, pos1 + str_len)

/-- The `for field in fields` loop of lines 104-130: decode each named field
in order, breaking as soon as the cursor reaches the end of the buffer, and
recording the non-empty values in insertion order. -/
def decodeFieldsAux (u : List Nat → String) (data : List Nat) :
    List String → Pair → Nat → Pair × Nat
  | [], pair, pos => (pair, pos)
  | field :: rest, pair, pos =>
    if pos ≥ data.length then (pair, pos)
    else
      let r := decode_field u data pos
      decodeFieldsAux u data rest
        (match r.1 with
         | some v => pair ++ [(field, PVal.s v)]
         | none => pair) r.2

/-- Line 133: `pos = (pos + 7) & ~7`, i.e. round up to the next multiple
of 8 (for a non-negative Python int this is exactly the masked value). -/
def align8 (pos : Nat) : Nat :=
  (pos + 7) / 8 * 8

/-- Exact rational value of a finite double bit pattern: sign, 11-bit
exponent, 52-bit mantissa; `(2^52+m) * 2^e / 2^1075` for normal numbers and
`m * 2 / 2^1075` for subnormals.  Only applied to finite patterns. -/
def floatValQ (b : Nat) : ℚ :=
  let sign : Nat := b / 2 ^ 63 % 2
  let ex : Nat := b / 2 ^ 52 % 2 ^ 11
  let m : Nat := b % 2 ^ 52
  let mag : ℚ :=
    (if ex = 0 then (m : ℚ) * 2 else ((2 ^ 52 + m : Nat) : ℚ) * (2 : ℚ) ^ ex) / (2 : ℚ) ^ 1075
  if sign = 1 then -mag else mag

/-- Python `int(...)` truncation toward zero on a rational (only applied
under the guard `0 <= value`, where it is floor). -/
def pyTrunc (q : ℚ) : Int :=
  Int.tdiv q.num (q.den : Int)

/-- One `if key in metrics: pair[outKey] = mk(metrics[key])` step of
lines 138-149. -/
def optEntry (o : Option Nat) (mk : Nat → Pair) : Pair :=
  match o with
  | some b => mk b
  | none => []

/-- Lines 137-161: the entries appended to the pair from a non-empty metrics
map, in source order.  `f` renders a double (by bit pattern) as Python
`str(...)` does; `t` renders the formatted timestamp (including the
`except` fallback of lines 158-161, which also yields a string). -/
def metricEntries (f : Nat → String) (t : Int → String)
    (metrics : List (String × Nat)) : Pair :=
  optEntry (List.lookup "price" metrics) (fun b => [("price", PVal.s (f b))]) ++
  optEntry (List.lookup "priceUsd" metrics) (fun b => [("priceUsd", PVal.s (f b))]) ++
  optEntry (List.lookup "priceChangeH24" metrics)
    (fun b => [("priceChange", PVal.d [("h24", f b)])]) ++
  optEntry (List.lookup "liquidityUsd" metrics)
    (fun b => [("liquidity", PVal.d [("usd", f b)])]) ++
  optEntry (List.lookup "volumeH24" metrics)
    (fun b => [("volume", PVal.d [("h24", f b)])]) ++
  optEntry (List.lookup "fdv" metrics) (fun b => [("fdv", PVal.s (f b))]) ++
  optEntry (List.lookup "timestamp" metrics)
    (fun b =>
      if 0 ≤ floatValQ b ∧ floatValQ b < 4102444800 then
        [("pairCreatedAt", PVal.n (pyTrunc (floatValQ b))),
         ("pairCreatedAtFormatted", PVal.s (t (pyTrunc (floatValQ b))))]
      else [])

/-- Lines 87-161 of `decode_pair`: skip the delimiter prefix, decode the six
text fields, align the cursor to 8 bytes, decode the metrics block, and map
the surviving metrics into the record. -/
def buildPair (u : List Nat → String) (f : Nat → String) (t : Int → String)
    (data : List Nat) : Pair :=
  let pos0 := skipCount data
  let fr := decodeFieldsAux u data fieldNames [] pos0
  let mr := decode_metrics data (align8 fr.2)
  if mr.1 = [] then fr.1 else fr.1 ++ metricEntries f t mr.1

/-- `str(pair.get(k, "0"))` (lines 165-166). -/
def pairGetStr (pair : Pair) (k : String) : String :=
  match List.lookup k pair with
  | some v => pyStr v
  | none => "0"

/-- Lines 167-168: `volume = pair.get("volume", {})` followed by
`str(volume["h24"]) if isinstance(volume, dict) else "0"`.  `none` means the
subscript raised `KeyError` (in particular when "volume" is absent: the `{}`
default is a dict without the key). -/
def pairVolumeH24 (pair : Pair) : Option String :=
  match List.lookup "volume" pair with
  | none => none
  | some (PVal.d l) => List.lookup "h24" l
  | some (PVal.s _) => some "0"
  | some (PVal.n _) => some "0"

/-- Lines 169-172: the same for `liquidity` / `"usd"`. -/
def pairLiquidityUsd (pair : Pair) : Option String :=
  match List.lookup "liquidity" pair with
  | none => none
  | some (PVal.d l) => List.lookup "usd" l
  | some (PVal.s _) => some "0"
  | some (PVal.n _) => some "0"

/-- Lines 163-177: validation.  `.error ()` is a `KeyError` escaping to the
catch-all handler. -/
def validatePair (pair : Pair) : Except Unit (Option Pair) :=
  if pair.length > 2 then
    let price := pairGetStr pair "price"
    let price_usd := pairGetStr pair "priceUsd"
    match pairVolumeH24 pair with
    | none => .error ()
    | some volume_h24 =>
      match pairLiquidityUsd pair with
      | none => .error ()
      | some liquidity_usd =>
        if price ≠ "0" ∨ price_usd ≠ "0" ∨ volume_h24 ≠ "0" ∨ liquidity_usd ≠ "0" then
          .ok (some pair)
        else .ok none
  else .ok none

/-- Lines 84-182: `decode_pair`.  The `except Exception` handler of
lines 179-182 turns any escaping exception into `None`. -/
def decode_pair (u : List Nat → String) (f : Nat → String) (t : Int → String)
    (data : List Nat) : Option Pair :=
  match validatePair (buildPair u f t data) with
  | .ok r => r
  | .error _ => none

/-- The magic header bytes of line 229 (`b"\x00\n1.3.0\n"`). -/
def magicHeader : List Nat :=
  [0, 10, 49, 46, 51, 46, 48, 10]

/-- The marker token of line 232 (`b"pairs"`). -/
def pairsToken : List Nat :=
  [112, 97, 105, 114, 115]

/-- `message.startswith(b"\x00\n1.3.0\n")` (line 229). -/
def startsWithHeader (message : List Nat) : Bool :=
  message.take magicHeader.length == magicHeader

/-- Whether the marker token occurs at offset `i` of the message. -/
def tokenAt (message : List Nat) (i : Nat) : Bool :=
  (message.drop i).take pairsToken.length == pairsToken

/-- `message.find(b"pairs")` (line 232): lowest offset at which the token
occurs, `none` when absent. -/
def bytesFind (message : List Nat) : Option Nat :=
  (List.range message.length).find? (tokenAt message)

/-- Line 240-242: decode one candidate slice and keep the result when it is
truthy (not `None` and not the empty dict). -/
def slicePair (u : List Nat → String) (f : Nat → String) (t : Int → String)
    (slice : List Nat) : Option Pair :=
  match decode_pair u f t slice with
  | some p => if p.isEmpty then none else some p
  | none => none

/-- The `while pos < len(message)` loop of lines 238-243, with fuel (one
unit per iteration; the caller passes `message.length`, which bounds the
iteration count since each iteration consumes 512 ≥ 1 bytes). -/
def scanLoopAux (u : List Nat → String) (f : Nat → String) (t : Int → String)
    (message : List Nat) : Nat → Nat → List Pair
  | 0, _ => []
  | fuel + 1, pos =>
    if pos < message.length then
      match slicePair u f t ((message.drop pos).take 512) with
      | some p => p :: scanLoopAux u f t message fuel (pos + 512)
      | none => scanLoopAux u f t message fuel (pos + 512)
    else []

/-- Lines 227-246 (FrameScanner): check the magic header, find the marker
token, and decode consecutive 512-byte slices starting at `pairs_start + 5`
into a batch. -/
def scanFrame (u : List Nat → String) (f : Nat → String) (t : Int → String)
    (message : List Nat) : List Pair :=
  if startsWithHeader message then
    match bytesFind message with
    | some pairs_start => scanLoopAux u f t message message.length (pairs_start + 5)
    | none => []
  else []

/-- Consecutive 512-byte chunks of a byte string, with fuel (one unit per
chunk; `chunks512` passes the length, which bounds the chunk count). -/
def chunksAux : Nat → List Nat → List (List Nat)
  | 0, _ => []
  | _ + 1, [] => []
  | fuel + 1, b :: rest => ((b :: rest).take 512) :: chunksAux fuel ((b :: rest).drop 512)

/-- Partition a byte string into consecutive 512-byte chunks, the last chunk
possibly shorter. -/
def chunks512 (l : List Nat) : List (List Nat) :=
  chunksAux l.length l

/-- Outcome of one round of the connection loop of lines 211-256: either the
connection attempt raised (caught at line 253, followed by
`await asyncio.sleep(1)`), or a session was established and later closed
(the inner loop breaks at line 248 and the outer loop retries immediately). -/
inductive ConnOutcome where
  | fail
  | closed
deriving DecidableEq

/-- The sleep durations performed by `connect_to_dexscreener` (lines
211-256) over a finite sequence of connection outcomes: 1 time unit after
every failed attempt, none after a normal close.  The function never raises
and never returns, so `main`'s backoff arithmetic (lines 264-273) never
runs and these are the process's only reconnect waits. -/
def connectLoopWaits : List ConnOutcome → List Nat
  | [] => []
  | .fail :: rest => 1 :: connectLoopWaits rest
  | .closed :: rest => connectLoopWaits rest

/-- Modelled from the spec: the wait sequence the spec describes —
exponential backoff starting at the current value `b`, doubling after each
failure, capped at 60, reset to 1 after any successful connection. -/
def backoffSpecWaits : Nat → List ConnOutcome → List Nat
  | _, [] => []
  | b, .fail :: rest => b :: backoffSpecWaits (min (b * 2) 60) rest
  | _, .closed :: rest => backoffSpecWaits 1 rest

/-- Line 273 of `main`: `backoff = min(backoff * 2, 60)` (dead in practice,
since `connect_to_dexscreener` never raises into `main`). -/
def mainBackoffStep (b : Nat) : Nat :=
  min (b * 2) 60

/-- Concrete stand-in for `bytes.decode("utf-8", errors="ignore")`, used to
instantiate witnesses: it agrees with CPython on the pure-ASCII inputs that
the concrete byte strings below contain (every byte below 128 decodes to
itself; the concrete inputs feed no byte ≥ 128 to the decoder). -/
def u0 (bs : List Nat) : String :=
  String.mk ((bs.filter (fun b => b < 128)).map Char.ofNat)

/-- Concrete stand-in for `str(<float>)`, used to instantiate witnesses: it
agrees with CPython on every bit pattern the concrete inputs below reach
(only 1.0, whose pattern is 0x3FF0000000000000), and, like CPython's `str`
of any finite non-zero float, never returns `"0"`. -/
def f0 (b : Nat) : String :=
  if b = 4607182418800017408 then "1.0" else "1.5"

/-- Concrete stand-in for the timestamp formatter (never reached by the
concrete inputs below, whose timestamp slot is zero and hence absent). -/
def t0 (_ : Int) : String :=
  "1970-01-01 00:00:00"

/-- 8-byte little-endian pattern of the double 1.0. -/
def d1 : List Nat :=
  [0, 0, 0, 0, 0, 0, 240, 63]

/-- 8 zero bytes (a zero double slot). -/
def z8 : List Nat :=
  [0, 0, 0, 0, 0, 0, 0, 0]

/-- A 72-byte candidate slice: one text field "A", five absent fields, one
padding byte, then a metrics block with price = liquidityUsd =
volumeH24 = 1.0 and all other slots zero.  Decodes to a record with four
populated fields that passes validation. -/
def slice72 : List Nat :=
  [1, 65, 0, 0, 0, 0, 0, 0] ++ d1 ++ z8 ++ z8 ++ d1 ++ d1 ++ z8 ++ z8 ++ z8

/-- The record decoded from `slice72` (with `u0`/`f0`/`t0`). -/
def pairA : Pair :=
  [("chain", PVal.s "A"),
   ("price", PVal.s "1.0"),
   ("liquidity", PVal.d [("usd", "1.0")]),
   ("volume", PVal.d [("h24", "1.0")])]

/-- A 72-byte candidate slice like `slice72` but with price = priceUsd = 1.0
and all other metric slots zero: its decoded mapping has three populated
fields including a non-"0" price, yet no `volume` key. -/
def dataC1 : List Nat :=
  [1, 65, 0, 0, 0, 0, 0, 0] ++ d1 ++ d1 ++ z8 ++ z8 ++ z8 ++ z8 ++ z8 ++ z8

/-- A complete binary message: magic header, marker token, then `slice72`
as the record section. -/
def m0 : List Nat :=
  magicHeader ++ pairsToken ++ slice72

/-! ## Helper lemmas -/

theorem lookup_append {β : Type} (k : String) (l₁ l₂ : List (String × β)) :
    List.lookup k (l₁ ++ l₂) = ((List.lookup k l₁).orElse fun _ => List.lookup k l₂) := by
  induction l₁ with
  | nil => rfl
  | cons kv rest ih =>
    cases h : k == kv.1 <;> simp [List.lookup, h, ih]

/-! ## Claims -/

/-- C3: `decode_pair` is total: for every byte slice (of any length,
including the empty slice and slices shorter than 64 bytes) it returns
either a record or no record.  Exceptions are explicit in the embedding
(`validatePair` returns `Except`, covering the `KeyError` the validator can
raise) and the catch-all handler of lines 179-182 maps them to `none`, so no
exception escapes. -/
theorem decode_pair_total (u : List Nat → String) (f : Nat → String)
    (t : Int → String) (data : List Nat) :
    decode_pair u f t data = none ∨ ∃ p, decode_pair u f t data = some p := by
  cases h : decode_pair u f t data
  · exact Or.inl rfl
  · exact Or.inr ⟨_, rfl⟩

/-- C4: whenever a length byte `L = data[pos]` is read (`pos` in range), the
field decoder advances the cursor by exactly `1 + L`, whether the field is
accepted or rejected (`L = 0`, `L > 100`, or fewer than `L` bytes remain). -/
theorem decode_field_advance (u : List Nat → String) (data : List Nat) (pos : Nat)
    (_h : pos < data.length) :
    (decode_field u data pos).2 = pos + (1 + data.getD pos 0) := by
  unfold decode_field
  dsimp only
  split
  · simp [Nat.add_assoc]
  · simp [Nat.add_assoc]

/-- Witness for C4 at the concrete buffer `[0]`, cursor 0 (a rejected field
with `L = 0`: the cursor advances to 1). -/
theorem decode_field_advance_w :
    (decode_field u0 [0] 0).2 = 0 + (1 + List.getD [0] 0 0) :=
  decode_field_advance u0 [0] 0 (by decide)

/-- C5: `decode_metrics` returns the empty metrics map and an unchanged
cursor when fewer than 64 bytes remain past the cursor, and otherwise
advances the cursor by exactly 64.  (The embedding is a total function:
the `struct.unpack` call is guarded by the length check, so the
`except` branch of lines 57-62 is unreachable.) -/
theorem decode_metrics_cursor (data : List Nat) (pos : Nat) :
    (data.length < pos + 64 → decode_metrics data pos = ([], pos)) ∧
    (pos + 64 ≤ data.length → (decode_metrics data pos).2 = pos + 64) := by
  constructor <;> intro h <;> unfold decode_metrics
  · rw [if_pos (by omega)]
  · rw [if_neg (by omega)]

/-- Witness for C5 at the empty buffer (fewer than 64 bytes remain). -/
theorem decode_metrics_cursor_w : decode_metrics ([] : List Nat) 0 = ([], 0) :=
  (decode_metrics_cursor [] 0).1 (by decide)

/-- C9 (amended): after every connection failure the process waits a
constant 1 time unit: the sleep sequence over any outcome sequence is one
entry of 1 per failed attempt.  `connect_to_dexscreener` catches every
connection failure itself (line 253) and sleeps 1 (line 256), never
returning and never raising, so the exponential backoff of `main`
(lines 264-273) never executes. -/
theorem connect_waits_constant_one (os : List ConnOutcome) :
    connectLoopWaits os = List.replicate (os.count ConnOutcome.fail) 1 := by
  induction os with
  | nil => rfl
  | cons o rest ih =>
    cases o <;> simp [connectLoopWaits, List.count_cons, ih, List.replicate_succ]

/-- Counterexample for C9 as stated: after two successive connection
failures the code waits 1 and then 1 again, while the claimed exponential
backoff (start 1, double each failure) would wait 1 and then 2. -/
theorem connect_waits_cex :
    connectLoopWaits [ConnOutcome.fail, ConnOutcome.fail] ≠
      backoffSpecWaits 1 [ConnOutcome.fail, ConnOutcome.fail] := by
  decide

theorem encBytes_length (k x : Nat) : (encBytes k x).length = k := by
  induction k generalizing x with
  | zero => rfl
  | succ k ih => simp [encBytes, ih]

theorem readBytes_cons (a : Nat) (l : List Nat) (k pos : Nat) :
    readBytes (a :: l) k (pos + 1) = readBytes l k pos := by
  induction k generalizing pos with
  | zero => rfl
  | succ k ih => simp [readBytes, List.getD_cons_succ, ih]

theorem readBytes_append_skip (pre l : List Nat) (k pos : Nat) :
    readBytes (pre ++ l) k (pre.length + pos) = readBytes l k pos := by
  induction pre with
  | nil => simp
  | cons a rest ih =>
    have e : (a :: rest).length + pos = (rest.length + pos) + 1 := by
      simp [List.length_cons]; omega
    rw [List.cons_append, e, readBytes_cons, ih]

theorem readBytes_enc (k x : Nat) (post : List Nat) (h : x < 256 ^ k) :
    readBytes (encBytes k x ++ post) k 0 = x := by
  induction k generalizing x with
  | zero => simp [readBytes]; omega
  | succ k ih =>
    have hdiv : x / 256 < 256 ^ k := by
      rw [Nat.div_lt_iff_lt_mul (by norm_num)]
      calc x < 256 ^ (k + 1) := h
        _ = 256 ^ k * 256 := by ring
    calc readBytes (encBytes (k + 1) x ++ post) (k + 1) 0
        = x % 256 + 256 * readBytes (x % 256 :: (encBytes k (x / 256) ++ post)) k 1 := by
          simp [encBytes, readBytes, List.getD_cons_zero]
      _ = x % 256 + 256 * (x / 256) := by
          rw [readBytes_cons (x % 256) (encBytes k (x / 256) ++ post) k 0, ih _ hdiv]
      _ = x := Nat.mod_add_div x 256

theorem readLE64_slot (pre post : List Nat) (b : Nat) (hb : b < 2 ^ 64) :
    readLE64 (pre ++ (encodeLE64 b ++ post)) pre.length = b := by
  have h0 : pre.length = pre.length + 0 := by omega
  rw [readLE64, h0, readBytes_append_skip]
  exact readBytes_enc 8 b post (by norm_num at hb ⊢; omega)

theorem keepMetric_nil {key : String} {b : Nat}
    (h : isFiniteBits b = false ∨ isZeroFloatBits b = true) :
    keepMetric key b = [] := by
  have hz : isZeroFloatBits 0 = true := by decide
  rcases h with h | h
  · simp [keepMetric, handle_double, h, hz]
  · cases hf : isFiniteBits b
    · simp [keepMetric, handle_double, hf, hz]
    · simp [keepMetric, handle_double, hf, h]

theorem lookup_keepMetric_ne {k key : String} (h : (k == key) = false) (b : Nat)
    (rest : List (String × Nat)) :
    List.lookup k (keepMetric key b ++ rest) = List.lookup k rest := by
  unfold keepMetric
  dsimp only
  split
  · rfl
  · simp [List.lookup, h]

theorem lookup_keepMetric_ne_nil {k key : String} (h : (k == key) = false) (b : Nat) :
    List.lookup k (keepMetric key b) = none := by
  have h2 := lookup_keepMetric_ne h b []
  rw [List.append_nil] at h2
  exact h2

theorem lookup_keepMetric_self {key : String} {b : Nat}
    (h1 : isFiniteBits b = true) (h2 : isZeroFloatBits b = false)
    (rest : List (String × Nat)) :
    List.lookup key (keepMetric key b ++ rest) = some b := by
  simp [keepMetric, handle_double, h1, h2, List.lookup]

theorem lookup_keepMetric_self_nil {key : String} {b : Nat}
    (h1 : isFiniteBits b = true) (h2 : isZeroFloatBits b = false) :
    List.lookup key (keepMetric key b) = some b := by
  simp [keepMetric, handle_double, h1, h2, List.lookup]

/-- C6: an 8-byte slot among the first seven whose double is non-finite
(NaN/infinity) or exactly zero produces no entry in the metrics map: the
corresponding named metric is absent from the result of `decode_metrics`,
never reported as zero. -/
theorem decode_metrics_absent (data : List Nat) (pos i : Nat) (hi : i < 7)
    (h : isFiniteBits (readLE64 data (pos + 8 * i)) = false ∨
         isZeroFloatBits (readLE64 data (pos + 8 * i)) = true) :
    List.lookup (metricNames.getD i "") (decode_metrics data pos).1 = none := by
  unfold decode_metrics
  split
  · simp
  · dsimp only
    interval_cases i <;>
      (norm_num at h
       simp only [metricNames, List.getD_cons_zero, List.getD_cons_succ,
         List.append_assoc]
       repeat rw [lookup_keepMetric_ne (by decide)]
       first
       | (rw [keepMetric_nil h, List.nil_append]
          repeat rw [lookup_keepMetric_ne (by decide)]
          rw [lookup_keepMetric_ne_nil (by decide)])
       | (rw [keepMetric_nil h]; rfl))

/-- Witness for C6: a 64-byte all-zero block yields no "price" metric. -/
theorem decode_metrics_absent_w :
    List.lookup (metricNames.getD 0 "")
      (decode_metrics (List.replicate 64 0) 0).1 = none :=
  decode_metrics_absent (List.replicate 64 0) 0 0 (by decide) (Or.inr (by decide))

/-- C7: round-trip.  Writing the 8-byte little-endian encoding of any
finite non-zero double bit pattern `b` into slot `i` (`i < 7`) of a 64-byte
block and decoding the block with `decode_metrics` yields exactly `b` for
the corresponding named metric, whatever the other bytes are.  (Doubles are
identified with their bit patterns; `struct.pack`/`struct.unpack` is the
identity on them, so bit-pattern equality is float equality here.) -/
theorem decode_metrics_roundtrip (i b : Nat) (pre post : List Nat) (hi : i < 7)
    (hb : b < 2 ^ 64) (hfin : isFiniteBits b = true) (hnz : isZeroFloatBits b = false)
    (hpre : pre.length = 8 * i) (hlen : pre.length + 8 + post.length = 64) :
    List.lookup (metricNames.getD i "")
      (decode_metrics (pre ++ (encodeLE64 b ++ post)) 0).1 = some b := by
  have hL : (pre ++ (encodeLE64 b ++ post)).length = 64 := by
    simp [List.length_append, encodeLE64, encBytes_length]
    omega
  have hs : readLE64 (pre ++ (encodeLE64 b ++ post)) pre.length = b :=
    readLE64_slot pre post b hb
  unfold decode_metrics
  rw [if_neg (by omega)]
  dsimp only
  interval_cases i
  · have e : pre.length = 0 := by omega
    rw [e] at hs
    simp only [metricNames, List.getD_cons_zero, List.getD_cons_succ, Nat.zero_add,
      List.append_assoc]
    rw [hs, lookup_keepMetric_self hfin hnz]
  · have e : pre.length = 8 := by omega
    rw [e] at hs
    simp only [metricNames, List.getD_cons_zero, List.getD_cons_succ, Nat.zero_add,
      List.append_assoc]
    rw [hs, lookup_keepMetric_ne (by decide), lookup_keepMetric_self hfin hnz]
  · have e : pre.length = 16 := by omega
    rw [e] at hs
    simp only [metricNames, List.getD_cons_zero, List.getD_cons_succ, Nat.zero_add,
      List.append_assoc]
    rw [hs, lookup_keepMetric_ne (by decide), lookup_keepMetric_ne (by decide),
      lookup_keepMetric_self hfin hnz]
  · have e : pre.length = 24 := by omega
    rw [e] at hs
    simp only [metricNames, List.getD_cons_zero, List.getD_cons_succ, Nat.zero_add,
      List.append_assoc]
    rw [hs, lookup_keepMetric_ne (by decide), lookup_keepMetric_ne (by decide),
      lookup_keepMetric_ne (by decide), lookup_keepMetric_self hfin hnz]
  · have e : pre.length = 32 := by omega
    rw [e] at hs
    simp only [metricNames, List.getD_cons_zero, List.getD_cons_succ, Nat.zero_add,
      List.append_assoc]
    rw [hs, lookup_keepMetric_ne (by decide), lookup_keepMetric_ne (by decide),
      lookup_keepMetric_ne (by decide), lookup_keepMetric_ne (by decide),
      lookup_keepMetric_self hfin hnz]
  · have e : pre.length = 40 := by omega
    rw [e] at hs
    simp only [metricNames, List.getD_cons_zero, List.getD_cons_succ, Nat.zero_add,
      List.append_assoc]
    rw [hs, lookup_keepMetric_ne (by decide), lookup_keepMetric_ne (by decide),
      lookup_keepMetric_ne (by decide), lookup_keepMetric_ne (by decide),
      lookup_keepMetric_ne (by decide), lookup_keepMetric_self hfin hnz]
  · have e : pre.length = 48 := by omega
    rw [e] at hs
    simp only [metricNames, List.getD_cons_zero, List.getD_cons_succ, Nat.zero_add,
      List.append_assoc]
    rw [hs, lookup_keepMetric_ne (by decide), lookup_keepMetric_ne (by decide),
      lookup_keepMetric_ne (by decide), lookup_keepMetric_ne (by decide),
      lookup_keepMetric_ne (by decide), lookup_keepMetric_ne (by decide),
      lookup_keepMetric_self_nil hfin hnz]

/-- Witness for C7: the pattern of 1.0 written into slot 0 of an otherwise
zero block decodes back to itself under the "price" metric. -/
theorem decode_metrics_roundtrip_w :
    List.lookup (metricNames.getD 0 "")
      (decode_metrics (([] : List Nat) ++
        (encodeLE64 4607182418800017408 ++ List.replicate 56 0)) 0).1 =
      some 4607182418800017408 :=
  decode_metrics_roundtrip 0 4607182418800017408 [] (List.replicate 56 0)
    (by decide) (by norm_num) (by decide) (by decide) (by decide) (by decide)

theorem mem_of_mem_takeWhile {α : Type} {p : α → Bool} {a : α} :
    ∀ {l : List α}, a ∈ l.takeWhile p → a ∈ l := by
  intro l
  induction l with
  | nil => intro h; simp [List.takeWhile] at h
  | cons b t ih =>
    intro h
    rw [List.takeWhile] at h
    cases hp : p b <;> rw [hp] at h
    · simp at h
    · rcases List.mem_cons.mp h with h | h
      · exact List.mem_cons.mpr (Or.inl h)
      · exact List.mem_cons.mpr (Or.inr (ih h))

theorem mem_pyStrip {a : Char} {l : List Char} (h : a ∈ pyStrip l) : a ∈ l := by
  unfold pyStrip at h
  have h1 : a ∈ List.dropWhile isStripWs l := by
    have hpre := List.rdropWhile_prefix isStripWs (List.dropWhile isStripWs l)
    exact hpre.subset h
  exact (List.dropWhile_suffix isStripWs).subset h1

theorem pyStrip_idem (l : List Char) : pyStrip (pyStrip l) = pyStrip l := by
  have h1 : List.dropWhile isStripWs (pyStrip l) = pyStrip l := by
    rw [List.dropWhile_eq_self_iff]
    intro hl
    have hpre : pyStrip l <+: List.dropWhile isStripWs l :=
      List.rdropWhile_prefix isStripWs (List.dropWhile isStripWs l)
    have hlA : 0 < (List.dropWhile isStripWs l).length := lt_of_lt_of_le hl hpre.length_le
    have hnot := List.dropWhile_get_zero_not (p := isStripWs) l hlA
    have hEq : (pyStrip l).get ⟨0, hl⟩ = (List.dropWhile isStripWs l).get ⟨0, hlA⟩ := by
      simp only [List.get_eq_getElem]
      exact List.IsPrefix.getElem hpre hl
    rw [hEq]
    exact hnot
  show List.rdropWhile isStripWs (List.dropWhile isStripWs (pyStrip l)) = pyStrip l
  rw [h1]
  unfold pyStrip
  exact List.rdropWhile_idempotent isStripWs (List.dropWhile isStripWs l)

theorem clean_string_fixed {s : String}
    (h1 : ∀ c ∈ s.data, isPrintableTab c = true)
    (h2 : '@' ∉ s.data) (h3 : '\\' ∉ s.data)
    (h4 : pyStrip s.data = s.data) :
    clean_string s = s := by
  by_cases hs : s = ""
  · rw [hs]; decide
  · unfold clean_string
    rw [if_neg hs]
    dsimp only
    rw [List.filter_eq_self.mpr h1,
      if_neg (by rintro (h | h); exacts [h2 h, h3 h]), h4]

theorem clean_string_output_props (s : String) :
    (∀ c ∈ (clean_string s).data, isPrintableTab c = true) ∧
    '@' ∉ (clean_string s).data ∧ '\\' ∉ (clean_string s).data ∧
    pyStrip (clean_string s).data = (clean_string s).data := by
  by_cases hs : s = ""
  · rw [hs]
    refine ⟨?_, ?_, ?_, ?_⟩ <;> decide
  · unfold clean_string
    rw [if_neg hs]
    dsimp only
    have hmem : ∀ c ∈ pyStrip (if '@' ∈ s.data.filter isPrintableTab ∨
        '\\' ∈ s.data.filter isPrintableTab then
          ((s.data.filter isPrintableTab).takeWhile (· != '@')).takeWhile (· != '\\')
        else s.data.filter isPrintableTab),
        c ∈ s.data.filter isPrintableTab := by
      intro c hc
      have hc2 := mem_pyStrip hc
      split at hc2
      · exact mem_of_mem_takeWhile (mem_of_mem_takeWhile hc2)
      · exact hc2
    refine ⟨?_, ?_, ?_, ?_⟩
    · intro c hc
      exact List.of_mem_filter (hmem c hc)
    · intro hc
      have hc2 := mem_pyStrip hc
      split at hc2
      · have := List.mem_takeWhile_imp (p := (· != '@')) (mem_of_mem_takeWhile hc2)
        simp at this
      · rename_i hcond
        rw [not_or] at hcond
        exact hcond.1 hc2
    · intro hc
      have hc2 := mem_pyStrip hc
      split at hc2
      · have := List.mem_takeWhile_imp (p := (· != '\\')) hc2
        simp at this
      · rename_i hcond
        rw [not_or] at hcond
        exact hcond.2 hc2
    · exact pyStrip_idem _

/-- C8: TextSanitizer is idempotent: `clean_string (clean_string s) =
clean_string s` for every string.  The output contains only
printable-ASCII-plus-tab characters, contains neither `@` nor a backslash,
and is already stripped, so a second pass changes nothing. -/
theorem clean_string_idempotent (s : String) :
    clean_string (clean_string s) = clean_string s := by
  obtain ⟨h1, h2, h3, h4⟩ := clean_string_output_props s
  exact clean_string_fixed h1 h2 h3 h4

theorem lookup_append_none {β : Type} (k : String) (l₁ l₂ : List (String × β))
    (h : List.lookup k l₁ = none) :
    List.lookup k (l₁ ++ l₂) = List.lookup k l₂ := by
  rw [lookup_append, h]
  rfl

theorem lookup_append_right_none {β : Type} (k : String) (l₁ l₂ : List (String × β))
    (h : List.lookup k l₂ = none) :
    List.lookup k (l₁ ++ l₂) = List.lookup k l₁ := by
  rw [lookup_append, h]
  cases List.lookup k l₁ <;> rfl

theorem decodeFieldsAux_lookup (u : List Nat → String) (data : List Nat) (k : String) :
    ∀ (fs : List String) (pair0 : Pair) (pos : Nat), k ∉ fs →
      List.lookup k (decodeFieldsAux u data fs pair0 pos).1 = List.lookup k pair0 := by
  intro fs
  induction fs with
  | nil => intro pair0 pos _; rfl
  | cons g rest ih =>
    intro pair0 pos hk
    rw [decodeFieldsAux]
    dsimp only
    split
    · rfl
    · rw [ih _ _ (fun h => hk (List.mem_cons.mpr (Or.inr h)))]
      cases (decode_field u data pos).1 with
      | none => rfl
      | some v =>
        have hkg : (k == g) = false :=
          beq_eq_false_iff_ne.mpr (fun h => hk (List.mem_cons.mpr (Or.inl h)))
        exact lookup_append_right_none k pair0 [(g, PVal.s v)] (by simp [List.lookup, hkg])

theorem keepMetric_sound {k key : String} {b c : Nat} {rest : List (String × Nat)}
    (hrest : List.lookup k rest = some c →
      isFiniteBits c = true ∧ isZeroFloatBits c = false)
    (h : List.lookup k (keepMetric key b ++ rest) = some c) :
    isFiniteBits c = true ∧ isZeroFloatBits c = false := by
  unfold keepMetric handle_double at h
  dsimp only at h
  by_cases hf : isFiniteBits b
  · rw [if_pos hf] at h
    by_cases hz : isZeroFloatBits b
    · rw [if_pos hz] at h
      exact hrest (by simpa using h)
    · rw [if_neg hz] at h
      rw [List.singleton_append, List.lookup] at h
      cases hkk : k == key <;> rw [hkk] at h
      · exact hrest h
      · obtain rfl : b = c := by injection h
        exact ⟨hf, by simpa using hz⟩
  · rw [if_neg hf, if_pos (by decide)] at h
    exact hrest (by simpa using h)

theorem keepMetric_sound_nil {k key : String} {b c : Nat}
    (h : List.lookup k (keepMetric key b) = some c) :
    isFiniteBits c = true ∧ isZeroFloatBits c = false := by
  have h' : List.lookup k (keepMetric key b ++ ([] : List (String × Nat))) = some c := by
    simpa using h
  exact keepMetric_sound (fun hx => by simp at hx) h'

theorem decode_metrics_sound (data : List Nat) (pos : Nat) (k : String) (c : Nat)
    (h : List.lookup k (decode_metrics data pos).1 = some c) :
    isFiniteBits c = true ∧ isZeroFloatBits c = false := by
  unfold decode_metrics at h
  split at h
  · simp at h
  · dsimp only at h
    simp only [List.append_assoc] at h
    exact keepMetric_sound (fun h1 => keepMetric_sound (fun h2 => keepMetric_sound
      (fun h3 => keepMetric_sound (fun h4 => keepMetric_sound (fun h5 =>
        keepMetric_sound (fun h6 => keepMetric_sound_nil h6) h5) h4) h3) h2) h1) h

theorem optEntry_none (mk : Nat → Pair) : optEntry none mk = [] := rfl

theorem lookup_optEntry_ne {k : String} (o : Option Nat) (mk : Nat → Pair)
    (hmk : ∀ b, List.lookup k (mk b) = none) (rest : Pair) :
    List.lookup k (optEntry o mk ++ rest) = List.lookup k rest := by
  cases o with
  | none => rfl
  | some b => exact lookup_append_none k (mk b) rest (hmk b)

theorem lookup_optEntry_ne_nil {k : String} (o : Option Nat) (mk : Nat → Pair)
    (hmk : ∀ b, List.lookup k (mk b) = none) :
    List.lookup k (optEntry o mk) = none := by
  cases o with
  | none => rfl
  | some b => exact hmk b

theorem metricEntries_price (f : Nat → String) (t : Int → String)
    (ms : List (String × Nat)) :
    List.lookup "price" (metricEntries f t ms) =
      (List.lookup "price" ms).map (fun b => PVal.s (f b)) := by
  unfold metricEntries
  simp only [List.append_assoc]
  cases h : List.lookup "price" ms with
  | some b => rfl
  | none =>
    rw [optEntry_none, List.nil_append,
      lookup_optEntry_ne (k := "price") (List.lookup "priceUsd" ms)
        (fun b => [("priceUsd", PVal.s (f b))]) (fun b => rfl),
      lookup_optEntry_ne (k := "price") (List.lookup "priceChangeH24" ms)
        (fun b => [("priceChange", PVal.d [("h24", f b)])]) (fun b => rfl),
      lookup_optEntry_ne (k := "price") (List.lookup "liquidityUsd" ms)
        (fun b => [("liquidity", PVal.d [("usd", f b)])]) (fun b => rfl),
      lookup_optEntry_ne (k := "price") (List.lookup "volumeH24" ms)
        (fun b => [("volume", PVal.d [("h24", f b)])]) (fun b => rfl),
      lookup_optEntry_ne (k := "price") (List.lookup "fdv" ms)
        (fun b => [("fdv", PVal.s (f b))]) (fun b => rfl),
      lookup_optEntry_ne_nil (k := "price") (List.lookup "timestamp" ms) _
        (by intro b; split <;> rfl)]
    rfl

theorem metricEntries_priceUsd (f : Nat → String) (t : Int → String)
    (ms : List (String × Nat)) :
    List.lookup "priceUsd" (metricEntries f t ms) =
      (List.lookup "priceUsd" ms).map (fun b => PVal.s (f b)) := by
  unfold metricEntries
  simp only [List.append_assoc]
  rw [lookup_optEntry_ne (k := "priceUsd") (List.lookup "price" ms)
    (fun b => [("price", PVal.s (f b))]) (fun b => rfl)]
  cases h : List.lookup "priceUsd" ms with
  | some b => rfl
  | none =>
    rw [optEntry_none, List.nil_append,
      lookup_optEntry_ne (k := "priceUsd") (List.lookup "priceChangeH24" ms)
        (fun b => [("priceChange", PVal.d [("h24", f b)])]) (fun b => rfl),
      lookup_optEntry_ne (k := "priceUsd") (List.lookup "liquidityUsd" ms)
        (fun b => [("liquidity", PVal.d [("usd", f b)])]) (fun b => rfl),
      lookup_optEntry_ne (k := "priceUsd") (List.lookup "volumeH24" ms)
        (fun b => [("volume", PVal.d [("h24", f b)])]) (fun b => rfl),
      lookup_optEntry_ne (k := "priceUsd") (List.lookup "fdv" ms)
        (fun b => [("fdv", PVal.s (f b))]) (fun b => rfl),
      lookup_optEntry_ne_nil (k := "priceUsd") (List.lookup "timestamp" ms) _
        (by intro b; split <;> rfl)]
    rfl

theorem metricEntries_liquidity (f : Nat → String) (t : Int → String)
    (ms : List (String × Nat)) :
    List.lookup "liquidity" (metricEntries f t ms) =
      (List.lookup "liquidityUsd" ms).map (fun b => PVal.d [("usd", f b)]) := by
  unfold metricEntries
  simp only [List.append_assoc]
  rw [lookup_optEntry_ne (k := "liquidity") (List.lookup "price" ms)
      (fun b => [("price", PVal.s (f b))]) (fun b => rfl),
    lookup_optEntry_ne (k := "liquidity") (List.lookup "priceUsd" ms)
      (fun b => [("priceUsd", PVal.s (f b))]) (fun b => rfl),
    lookup_optEntry_ne (k := "liquidity") (List.lookup "priceChangeH24" ms)
      (fun b => [("priceChange", PVal.d [("h24", f b)])]) (fun b => rfl)]
  cases h : List.lookup "liquidityUsd" ms with
  | some b => rfl
  | none =>
    rw [optEntry_none, List.nil_append,
      lookup_optEntry_ne (k := "liquidity") (List.lookup "volumeH24" ms)
        (fun b => [("volume", PVal.d [("h24", f b)])]) (fun b => rfl),
      lookup_optEntry_ne (k := "liquidity") (List.lookup "fdv" ms)
        (fun b => [("fdv", PVal.s (f b))]) (fun b => rfl),
      lookup_optEntry_ne_nil (k := "liquidity") (List.lookup "timestamp" ms) _
        (by intro b; split <;> rfl)]
    rfl

theorem metricEntries_volume (f : Nat → String) (t : Int → String)
    (ms : List (String × Nat)) :
    List.lookup "volume" (metricEntries f t ms) =
      (List.lookup "volumeH24" ms).map (fun b => PVal.d [("h24", f b)]) := by
  unfold metricEntries
  simp only [List.append_assoc]
  rw [lookup_optEntry_ne (k := "volume") (List.lookup "price" ms)
      (fun b => [("price", PVal.s (f b))]) (fun b => rfl),
    lookup_optEntry_ne (k := "volume") (List.lookup "priceUsd" ms)
      (fun b => [("priceUsd", PVal.s (f b))]) (fun b => rfl),
    lookup_optEntry_ne (k := "volume") (List.lookup "priceChangeH24" ms)
      (fun b => [("priceChange", PVal.d [("h24", f b)])]) (fun b => rfl),
    lookup_optEntry_ne (k := "volume") (List.lookup "liquidityUsd" ms)
      (fun b => [("liquidity", PVal.d [("usd", f b)])]) (fun b => rfl)]
  cases h : List.lookup "volumeH24" ms with
  | some b => rfl
  | none =>
    rw [optEntry_none, List.nil_append,
      lookup_optEntry_ne (k := "volume") (List.lookup "fdv" ms)
        (fun b => [("fdv", PVal.s (f b))]) (fun b => rfl),
      lookup_optEntry_ne_nil (k := "volume") (List.lookup "timestamp" ms) _
        (by intro b; split <;> rfl)]
    rfl

theorem buildPair_price_char (u : List Nat → String) (f : Nat → String)
    (t : Int → String) (data : List Nat) :
    List.lookup "price" (buildPair u f t data) =
      (List.lookup "price" (decode_metrics data
        (align8 (decodeFieldsAux u data fieldNames [] (skipCount data)).2)).1).map
        (fun b => PVal.s (f b)) := by
  unfold buildPair
  dsimp only
  have hfields : List.lookup "price"
      (decodeFieldsAux u data fieldNames [] (skipCount data)).1 = none :=
    (decodeFieldsAux_lookup u data "price" fieldNames [] (skipCount data)
      (by decide)).trans rfl
  split
  · rename_i hm
    rw [hm, hfields]
    rfl
  · rw [lookup_append_none _ _ _ hfields, metricEntries_price]

theorem buildPair_priceUsd_char (u : List Nat → String) (f : Nat → String)
    (t : Int → String) (data : List Nat) :
    List.lookup "priceUsd" (buildPair u f t data) =
      (List.lookup "priceUsd" (decode_metrics data
        (align8 (decodeFieldsAux u data fieldNames [] (skipCount data)).2)).1).map
        (fun b => PVal.s (f b)) := by
  unfold buildPair
  dsimp only
  have hfields : List.lookup "priceUsd"
      (decodeFieldsAux u data fieldNames [] (skipCount data)).1 = none :=
    (decodeFieldsAux_lookup u data "priceUsd" fieldNames [] (skipCount data)
      (by decide)).trans rfl
  split
  · rename_i hm
    rw [hm, hfields]
    rfl
  · rw [lookup_append_none _ _ _ hfields, metricEntries_priceUsd]

theorem buildPair_volume_char (u : List Nat → String) (f : Nat → String)
    (t : Int → String) (data : List Nat) :
    List.lookup "volume" (buildPair u f t data) =
      (List.lookup "volumeH24" (decode_metrics data
        (align8 (decodeFieldsAux u data fieldNames [] (skipCount data)).2)).1).map
        (fun b => PVal.d [("h24", f b)]) := by
  unfold buildPair
  dsimp only
  have hfields : List.lookup "volume"
      (decodeFieldsAux u data fieldNames [] (skipCount data)).1 = none :=
    (decodeFieldsAux_lookup u data "volume" fieldNames [] (skipCount data)
      (by decide)).trans rfl
  split
  · rename_i hm
    rw [hm, hfields]
    rfl
  · rw [lookup_append_none _ _ _ hfields, metricEntries_volume]

theorem buildPair_liquidity_char (u : List Nat → String) (f : Nat → String)
    (t : Int → String) (data : List Nat) :
    List.lookup "liquidity" (buildPair u f t data) =
      (List.lookup "liquidityUsd" (decode_metrics data
        (align8 (decodeFieldsAux u data fieldNames [] (skipCount data)).2)).1).map
        (fun b => PVal.d [("usd", f b)]) := by
  unfold buildPair
  dsimp only
  have hfields : List.lookup "liquidity"
      (decodeFieldsAux u data fieldNames [] (skipCount data)).1 = none :=
    (decodeFieldsAux_lookup u data "liquidity" fieldNames [] (skipCount data)
      (by decide)).trans rfl
  split
  · rename_i hm
    rw [hm, hfields]
    rfl
  · rw [lookup_append_none _ _ _ hfields, metricEntries_liquidity]

theorem decode_pair_some_iff (u : List Nat → String) (f : Nat → String)
    (t : Int → String) (data : List Nat) (p : Pair) :
    decode_pair u f t data = some p ↔
      (p = buildPair u f t data ∧ 2 < p.length ∧
       ∃ vh lu, pairVolumeH24 p = some vh ∧ pairLiquidityUsd p = some lu ∧
         (pairGetStr p "price" ≠ "0" ∨ pairGetStr p "priceUsd" ≠ "0" ∨
          vh ≠ "0" ∨ lu ≠ "0")) := by
  unfold decode_pair validatePair
  dsimp only
  by_cases hlen : (buildPair u f t data).length > 2
  case pos =>
    rw [if_pos hlen]
    cases hv : pairVolumeH24 (buildPair u f t data) with
    | none =>
      dsimp only
      constructor
      · intro h; cases h
      · rintro ⟨rfl, _, vh, lu, hvh, _⟩
        rw [hv] at hvh
        cases hvh
    | some vh0 =>
      dsimp only
      cases hl : pairLiquidityUsd (buildPair u f t data) with
      | none =>
        dsimp only
        constructor
        · intro h; cases h
        · rintro ⟨rfl, _, vh, lu, _, hlu, _⟩
          rw [hl] at hlu
          cases hlu
      | some lu0 =>
        dsimp only
        by_cases hc : (pairGetStr (buildPair u f t data) "price" ≠ "0" ∨
            pairGetStr (buildPair u f t data) "priceUsd" ≠ "0" ∨
            vh0 ≠ "0" ∨ lu0 ≠ "0")
        · rw [if_pos hc]
          dsimp only
          constructor
          · intro h
            have hp : p = buildPair u f t data := by
              injection h with h'
              exact h'.symm
            subst hp
            exact ⟨rfl, hlen, vh0, lu0, hv, hl, hc⟩
          · rintro ⟨rfl, _, _, _, _, _, _⟩
            rfl
        · rw [if_neg hc]
          dsimp only
          constructor
          · intro h; cases h
          · rintro ⟨rfl, _, vh, lu, hvh, hlu, hcond⟩
            rw [hv] at hvh
            rw [hl] at hlu
            injection hvh with e1
            injection hlu with e2
            subst e1
            subst e2
            exact absurd hcond hc
  case neg =>
    rw [if_neg hlen]
    dsimp only
    constructor
    · intro h; cases h
    · rintro ⟨rfl, h2, _⟩
      exact absurd h2 hlen

/-- C1 (amended): `decode_pair` returns a record exactly when the decoded
mapping has more than two populated fields, the validator's `volume["h24"]`
and `liquidity["usd"]` accesses both succeed (in particular the `volume` and
`liquidity` keys are present — when either is absent the access on the `{}`
default raises `KeyError`, which the catch-all turns into no record), and at
least one of price, priceUsd, volume.h24, liquidity.usd is not the string
"0".  The claim as stated omits the volume/liquidity-presence requirement
and is refuted by `decode_pair_validation_cex`. -/
theorem decode_pair_validation (u : List Nat → String) (f : Nat → String)
    (t : Int → String) (data : List Nat) (p : Pair) :
    decode_pair u f t data = some p ↔
      (p = buildPair u f t data ∧ 2 < p.length ∧
       ∃ vh lu, pairVolumeH24 p = some vh ∧ pairLiquidityUsd p = some lu ∧
         (pairGetStr p "price" ≠ "0" ∨ pairGetStr p "priceUsd" ≠ "0" ∨
          vh ≠ "0" ∨ lu ≠ "0")) :=
  decode_pair_some_iff u f t data p

/-- Counterexample for C1 as stated: `dataC1` decodes to a mapping with
three populated fields (`chain`, `price`, `priceUsd`) whose `price` is
present and not `"0"`, so the claim requires a record to be returned — yet
`decode_pair` returns no record (the validator's `volume["h24"]` raises
`KeyError` because `volume` is absent). -/
theorem decode_pair_validation_cex :
    decode_pair u0 f0 t0 dataC1 = none ∧
    2 < (buildPair u0 f0 t0 dataC1).length ∧
    (List.lookup "price" (buildPair u0 f0 t0 dataC1)).isSome = true ∧
    pairGetStr (buildPair u0 f0 t0 dataC1) "price" ≠ "0" := by
  decide

/-- The concrete float renderer `f0` never returns `"0"` (as CPython's
`str` of a finite non-zero float never does). -/
theorem f0_ne_zero : ∀ b, isFiniteBits b = true → isZeroFloatBits b = false →
    f0 b ≠ "0" := by
  intro b _ _
  unfold f0
  split <;> decide

/-- C10: in every record returned by `decode_pair`, provided the float
renderer never prints a surviving (finite, non-zero) metric as `"0"` — a
property of CPython's `str` — the validator's "not `"0"`" test succeeds
exactly when the corresponding key exists: the price and priceUsd tests are
equivalent to key presence, and the volume/liquidity keys are present with
sub-values that are never `"0"`; in particular at least one of the four
keys is present in the record. -/
theorem record_key_presence (u : List Nat → String) (f : Nat → String)
    (t : Int → String) (data : List Nat) (p : Pair)
    (hrepr : ∀ b, isFiniteBits b = true → isZeroFloatBits b = false → f b ≠ "0")
    (h : decode_pair u f t data = some p) :
    ((pairGetStr p "price" ≠ "0") ↔ (List.lookup "price" p).isSome = true) ∧
    ((pairGetStr p "priceUsd" ≠ "0") ↔ (List.lookup "priceUsd" p).isSome = true) ∧
    (List.lookup "volume" p).isSome = true ∧
    (List.lookup "liquidity" p).isSome = true ∧
    (∃ s, pairVolumeH24 p = some s ∧ s ≠ "0") ∧
    (∃ s, pairLiquidityUsd p = some s ∧ s ≠ "0") := by
  obtain ⟨hp, _, vh, lu, hv, hl, _⟩ := (decode_pair_some_iff u f t data p).mp h
  subst hp
  refine ⟨?_, ?_, ?_, ?_, ?_, ?_⟩
  · rw [buildPair_price_char]
    cases hm : List.lookup "price" (decode_metrics data
        (align8 (decodeFieldsAux u data fieldNames [] (skipCount data)).2)).1 with
    | none => simp [pairGetStr, buildPair_price_char, hm]
    | some b =>
      obtain ⟨hf, hz⟩ := decode_metrics_sound _ _ _ _ hm
      simp [pairGetStr, buildPair_price_char, hm, pyStr, hrepr b hf hz]
  · rw [buildPair_priceUsd_char]
    cases hm : List.lookup "priceUsd" (decode_metrics data
        (align8 (decodeFieldsAux u data fieldNames [] (skipCount data)).2)).1 with
    | none => simp [pairGetStr, buildPair_priceUsd_char, hm]
    | some b =>
      obtain ⟨hf, hz⟩ := decode_metrics_sound _ _ _ _ hm
      simp [pairGetStr, buildPair_priceUsd_char, hm, pyStr, hrepr b hf hz]
  · cases hm : List.lookup "volumeH24" (decode_metrics data
        (align8 (decodeFieldsAux u data fieldNames [] (skipCount data)).2)).1 with
    | none =>
      rw [pairVolumeH24, buildPair_volume_char, hm] at hv
      cases hv
    | some b =>
      rw [buildPair_volume_char, hm]
      rfl
  · cases hm : List.lookup "liquidityUsd" (decode_metrics data
        (align8 (decodeFieldsAux u data fieldNames [] (skipCount data)).2)).1 with
    | none =>
      rw [pairLiquidityUsd, buildPair_liquidity_char, hm] at hl
      cases hl
    | some b =>
      rw [buildPair_liquidity_char, hm]
      rfl
  · cases hm : List.lookup "volumeH24" (decode_metrics data
        (align8 (decodeFieldsAux u data fieldNames [] (skipCount data)).2)).1 with
    | none =>
      rw [pairVolumeH24, buildPair_volume_char, hm] at hv
      cases hv
    | some b =>
      obtain ⟨hf, hz⟩ := decode_metrics_sound _ _ _ _ hm
      refine ⟨f b, ?_, hrepr b hf hz⟩
      rw [pairVolumeH24, buildPair_volume_char, hm]
      rfl
  · cases hm : List.lookup "liquidityUsd" (decode_metrics data
        (align8 (decodeFieldsAux u data fieldNames [] (skipCount data)).2)).1 with
    | none =>
      rw [pairLiquidityUsd, buildPair_liquidity_char, hm] at hl
      cases hl
    | some b =>
      obtain ⟨hf, hz⟩ := decode_metrics_sound _ _ _ _ hm
      refine ⟨f b, ?_, hrepr b hf hz⟩
      rw [pairLiquidityUsd, buildPair_liquidity_char, hm]
      rfl

/-- Witness for C10 at `slice72` (decoded record `pairA`), with the
concrete renderer `f0`. -/
theorem record_key_presence_w :
    ((pairGetStr pairA "price" ≠ "0") ↔ (List.lookup "price" pairA).isSome = true) ∧
    ((pairGetStr pairA "priceUsd" ≠ "0") ↔ (List.lookup "priceUsd" pairA).isSome = true) ∧
    (List.lookup "volume" pairA).isSome = true ∧
    (List.lookup "liquidity" pairA).isSome = true ∧
    (∃ s, pairVolumeH24 pairA = some s ∧ s ≠ "0") ∧
    (∃ s, pairLiquidityUsd pairA = some s ∧ s ≠ "0") :=
  record_key_presence u0 f0 t0 slice72 pairA f0_ne_zero (by decide)

theorem chunksAux_nil (n : Nat) : chunksAux n [] = [] := by
  cases n <;> rfl

theorem chunksAux_congr :
    ∀ (n m : Nat) (l : List Nat), l.length ≤ n → l.length ≤ m →
      chunksAux n l = chunksAux m l := by
  intro n
  induction n with
  | zero =>
    intro m l h1 _
    have : l = [] := List.eq_nil_of_length_eq_zero (by omega)
    subst this
    rw [chunksAux_nil, chunksAux_nil]
  | succ n ih =>
    intro m l h1 h2
    cases l with
    | nil => rw [chunksAux_nil, chunksAux_nil]
    | cons a tl =>
      cases m with
      | zero => simp at h2
      | succ m =>
        rw [chunksAux, chunksAux]
        congr 1
        apply ih
        · simp only [List.length_drop, List.length_cons]
          simp only [List.length_cons] at h1
          omega
        · simp only [List.length_drop, List.length_cons]
          simp only [List.length_cons] at h2
          omega

theorem scanLoop_eq_chunks (u : List Nat → String) (f : Nat → String)
    (t : Int → String) (msg : List Nat) :
    ∀ (fuel pos : Nat), msg.length - pos ≤ fuel →
      scanLoopAux u f t msg fuel pos =
        List.filterMap (slicePair u f t) (chunks512 (msg.drop pos)) := by
  intro fuel
  induction fuel with
  | zero =>
    intro pos h
    have hlen : msg.length ≤ pos := by omega
    rw [scanLoopAux, List.drop_eq_nil_of_le hlen]
    rfl
  | succ fuel ih =>
    intro pos h
    rw [scanLoopAux]
    by_cases hpos : pos < msg.length
    · rw [if_pos hpos]
      obtain ⟨a, tl, he⟩ := List.exists_cons_of_ne_nil
        (show msg.drop pos ≠ [] by
          intro hnil
          have := List.drop_eq_nil_iff.mp hnil
          omega)
      have hdd : msg.drop (pos + 512) = (a :: tl).drop 512 := by
        rw [← he, List.drop_drop, Nat.add_comm]
      have hchunks : chunks512 (msg.drop pos) =
          (msg.drop pos).take 512 :: chunks512 (msg.drop (pos + 512)) := by
        rw [chunks512, he, hdd]
        simp only [List.length_cons]
        rw [chunksAux]
        congr 1
        apply chunksAux_congr
        · simp only [List.length_drop, List.length_cons]
          omega
        · exact le_refl _
      rw [hchunks, List.filterMap_cons]
      have ih' := ih (pos + 512) (by omega)
      cases hsp : slicePair u f t ((msg.drop pos).take 512) <;> simp [hsp, ih']
    · rw [if_neg hpos]
      rw [List.drop_eq_nil_of_le (by omega)]
      rfl

/-- C2 (amended): for every binary message that starts with the magic
header and contains the `pairs` marker token (first occurrence at offset
`i`), the batch produced by the frame scanner equals the truthy results of
`decode_pair`, in input order, on consecutive 512-byte slices (last slice
possibly shorter) of the bytes beginning immediately after the end of the
token — i.e. 5 bytes after its start, `i + 5`.  The claim as stated places
the record section 5 bytes after the END of the token (`i + 10`) and is
refuted by `scanFrame_batches_cex`. -/
theorem scanFrame_batches (u : List Nat → String) (f : Nat → String)
    (t : Int → String) (msg : List Nat) (i : Nat)
    (hh : startsWithHeader msg = true) (hfind : bytesFind msg = some i) :
    scanFrame u f t msg =
      List.filterMap (slicePair u f t) (chunks512 (msg.drop (i + 5))) := by
  unfold scanFrame
  rw [if_pos hh, hfind]
  exact scanLoop_eq_chunks u f t msg msg.length (i + 5) (by omega)

/-- Witness for C2 (amended) on the concrete message `m0` (token at
offset 8): the scanned batch equals the decoded 512-byte partition starting
at offset 13. -/
theorem scanFrame_batches_w :
    scanFrame u0 f0 t0 m0 =
      List.filterMap (slicePair u0 f0 t0) (chunks512 (m0.drop (8 + 5))) :=
  scanFrame_batches u0 f0 t0 m0 8 (by decide) (by decide)

/-- Counterexample for C2 as stated: on `m0` the token starts at offset 8,
so the claimed record section would begin at offset 8 + 5 + 5 (5 bytes
after the token's end).  The scanner's batch (one record) differs from the
decoded partition of the bytes from offset 18 (no records). -/
theorem scanFrame_batches_cex :
    bytesFind m0 = some 8 ∧
    scanFrame u0 f0 t0 m0 ≠
      List.filterMap (slicePair u0 f0 t0) (chunks512 (m0.drop (8 + 5 + 5))) := by
  constructor
  · decide
  · decide

/-- Witness for C1 (amended) at `slice72`: its decoded mapping satisfies the
amended condition and `decode_pair` returns it as the record `pairA`. -/
theorem decode_pair_validation_w :
    decode_pair u0 f0 t0 slice72 = some pairA :=
  (decode_pair_validation u0 f0 t0 slice72 pairA).mpr
    ⟨by decide, by decide, "1.0", "1.0", by decide, by decide, Or.inl (by decide)⟩
